import Mathlib

/-!
Verification of the request-routing and record-store interaction layer of the
serverless user-management service (`aws-users-api/src/lambda/handler.ts`).

The handler is shallowly embedded: DynamoDB is modelled as a keyed list of
items, JavaScript values relevant to the handler (JSON bodies, attribute
values that may be a string, `null`, or absent) are modelled by explicit
inductive types, and the ambient effects (UUID generation, faker data, the
clock) are passed in as an explicit generator record.  Exceptions raised by
`JSON.parse` are modelled with `Except`; the top-level `try/catch` of the
handler is the `Except`-eliminating wrapper `handler`.

JavaScript string operations used by the handler (`split`, `startsWith`,
`toLowerCase`, `includes`, relational comparison of strings) are embedded as
executable functions over `List Char` (`String.data`), comparing characters
by code point, which agrees with the JavaScript code-unit comparison on the
ASCII data this service manipulates.
-/

/-! ## JavaScript string primitives, embedded over `List Char` -/

/-- Tests whether the first list is an initial segment of the second
(the core of `String.prototype.startsWith` and of `includes`). -/
def listStartsWith : List Char → List Char → Bool
  | [], _ => true
  | _ :: _, [] => false
  | a :: as, b :: bs => a == b && listStartsWith as bs

/-- JavaScript `hay.includes(needle)`: `needle` occurs contiguously in `hay`. -/
def listHasInfix (hay needle : List Char) : Bool :=
  (List.range (hay.length + 1)).any (fun i => listStartsWith needle (hay.drop i))

/-- JavaScript `toLowerCase`, restricted to the ASCII case folding the
service's data actually uses. -/
def lowerL (l : List Char) : List Char := l.map Char.toLower

/-- Strict lexicographic order on character lists by code point: the order
JavaScript `<` / `>=` induce on strings. -/
def chListLt : List Char → List Char → Bool
  | _, [] => false
  | [], _ :: _ => true
  | a :: as, b :: bs =>
    if a.toNat < b.toNat then true
    else if b.toNat < a.toNat then false
    else chListLt as bs

/-- JavaScript `a < b` on strings. -/
def strLtB (a b : String) : Bool := chListLt a.data b.data

/-- JavaScript `path.startsWith(pre)`. -/
def strStarts (pre s : String) : Bool := listStartsWith pre.data s.data

/-- Characters of a list up to (excluding) the first occurrence of `sep`,
or the whole list if `sep` does not occur.  `path.split(sep)[1]` for a path
that starts with `sep` is `takeUntilSep sep.data (path.data.drop sep.length)`:
the piece between the leading separator occurrence and the next one. -/
def takeUntilSep (sep : List Char) : List Char → List Char
  | [] => []
  | c :: cs => if listStartsWith sep (c :: cs) then [] else c :: takeUntilSep sep cs

/-- The id the handler extracts on the `/users/{id}` route:
`path.split("/users/")[1]`, evaluated under the guard
`path.startsWith("/users/")` (so the first split piece is `""` and the second
is the text between the prefix and the next `"/users/"` occurrence, if any). -/
def userIdOf (path : String) : String :=
  String.mk (takeUntilSep "/users/".data (path.data.drop 7))

/-! ## Data model -/

/-- An attribute value of a stored record or of a parsed JSON body field:
a JavaScript string, JavaScript `null`, or absent (`undefined` / no such
attribute). -/
inductive Attr where
  | absent
  | null
  | str (s : String)
deriving DecidableEq, Repr

/-- A record (user) held by the store.  `id` is the partition key and is
always present on stored items; the remaining attributes may be a string,
null, or missing. -/
structure Item where
  id : String
  name : Attr
  email : Attr
  createdAt : Attr
deriving DecidableEq, Repr

/-- A JSON value, the shape of every response body the handler produces. -/
inductive J where
  | nullJ
  | str (s : String)
  | num (n : Int)
  | arr (xs : List J)
  | obj (fields : List (String × J))

/-- An HTTP response: status code, headers, JSON body
(`APIGatewayProxyResultV2` as the handler builds it). -/
structure Resp where
  statusCode : Nat
  headers : List (String × String) := []
  body : J

/-- The result of `JSON.parse` on a request body, restricted to the fields
the handler destructures: `name` and `email` (strings, null, or missing) and
`count` (an integer or missing).  `malformed` is a body on which `JSON.parse`
throws. -/
inductive Body where
  | malformed
  | obj (name email : Attr) (count : Option Int)

/-- An inbound request: method, path, the `q` query parameter (if present),
and the raw body (`none` models an absent body). -/
structure Event where
  method : String
  path : String
  q : Option String := none
  body : Option Body := none

/-- The ambient generators the handler samples: `uuidv4()`, faker name and
email, and `new Date().toISOString()`, each indexed by how many times the
operation has sampled it so far. -/
structure Gen where
  uuid : Nat → String
  fakeName : Nat → String
  fakeEmail : Nat → String
  nowIso : Nat → String

/-- JSON serialization of one attribute: absent attributes are omitted,
null attributes serialize as `null` (matching `JSON.stringify`). -/
def fieldEntries (k : String) : Attr → List (String × J)
  | Attr.absent => []
  | Attr.null => [(k, J.nullJ)]
  | Attr.str s => [(k, J.str s)]

/-- JSON serialization of a stored record. -/
def itemJ (it : Item) : J :=
  J.obj ([("id", J.str it.id)] ++ fieldEntries "name" it.name
    ++ fieldEntries "email" it.email ++ fieldEntries "createdAt" it.createdAt)

/-! ## The key-value store (DynamoDB table keyed by `id`) -/

/-- `GetCommand`: first item with the given key. -/
def getItem (db : List Item) (key : String) : Option Item :=
  db.find? (fun it => it.id == key)

/-- `PutCommand` semantics: replace the item with the same key, or insert. -/
def putItem : List Item → Item → List Item
  | [], u => [u]
  | j :: js, u => if j.id == u.id then u :: js else j :: putItem js u

/-- `DeleteCommand`: remove the item with the given key (no-op if absent). -/
def deleteItem (db : List Item) (key : String) : List Item :=
  db.filter (fun j => !(j.id == key))

/-- JavaScript `x || null` as applied to a parsed body field: `undefined`,
`null` and every other falsy value (for string fields, the empty string)
collapse to `null`. -/
def orNull : Attr → Attr
  | Attr.absent => Attr.null
  | Attr.null => Attr.null
  | Attr.str s => if s = "" then Attr.null else Attr.str s

/-- `UpdateCommand` with `SET #name = :name, #email = :email` and
`ReturnValues: ALL_NEW`: sets exactly the two attributes on the stored item,
or — when no item has the key — creates one carrying only the key and the
two attributes (DynamoDB update is an upsert).  Returns the post-update item
and the new store. -/
def updateItem (db : List Item) (key : String) (nm em : Attr) : Item × List Item :=
  match getItem db key with
  | some it =>
    let u : Item := { it with name := nm, email := em }
    (u, putItem db u)
  | none =>
    let u : Item := { id := key, name := nm, email := em, createdAt := Attr.absent }
    (u, putItem db u)

/-! ## Operations (one per handler function in the source) -/

/-- `getAllUsers`: scan, return all items. -/
def getAllUsers (db : List Item) : Resp :=
  { statusCode := 200, body := J.arr (db.map itemJ) }

/-- `createUser`: `JSON.parse(event.body!)` (throws on an absent or
malformed body), build the record from a fresh uuid and timestamp, put it,
return 201 with the record. -/
def createUser (ev : Event) (db : List Item) (g : Gen) :
    Except Unit (Resp × List Item) :=
  match ev.body with
  | some (Body.obj nm em _) =>
    let user : Item :=
      { id := g.uuid 0, name := nm, email := em, createdAt := Attr.str (g.nowIso 0) }
    Except.ok ({ statusCode := 201, body := itemJ user }, putItem db user)
  | _ => Except.error ()

/-- Count extraction of `bulkCreateUsers`:
`const { count = 10 } = event.body ? JSON.parse(event.body) : {}` —
an absent body yields the empty object, hence the default 10; a malformed
body throws; a parsed object defaults a missing `count` to 10. -/
def bulkCount : Option Body → Except Unit Int
  | none => Except.ok 10
  | some Body.malformed => Except.error ()
  | some (Body.obj _ _ c) => Except.ok (c.getD 10)

/-- `Math.min(Math.max(1, count), 100)`. -/
def clampCount (c : Int) : Int := min (max 1 c) 100

/-- The generation loop of `bulkCreateUsers`: record `i` samples uuid, faker
name, faker email, and `new Date().toISOString()` at index `i` (the clock is
read again on every iteration). -/
def genUsers (g : Gen) (n : Nat) : List Item :=
  (List.range n).map (fun i =>
    { id := g.uuid i, name := Attr.str (g.fakeName i),
      email := Attr.str (g.fakeEmail i), createdAt := Attr.str (g.nowIso i) })

/-- The chunking loop of `bulkCreateUsers`:
`for (let i = 0; i < users.length; i += 25) batches.push(users.slice(i, i + 25))`. -/
def batchesOf (l : List Item) : List (List Item) :=
  (List.range ((l.length + 24) / 25)).map (fun k => (l.drop (25 * k)).take 25)

/-- The pure core of `bulkCreateUsers`: parse the count, clamp it, generate
the users, chunk them into the batch-write calls (in order). -/
def bulkPlan (b : Option Body) (g : Gen) :
    Except Unit (List Item × List (List Item)) :=
  (bulkCount b).map (fun c =>
    let users := genUsers g (clampCount c).toNat
    (users, batchesOf users))

/-- The sequential batch-write loop: each `BatchWriteCommand` puts every item
of its chunk; chunks are applied one at a time, in order. -/
def applyBatches (db : List Item) (bs : List (List Item)) : List Item :=
  bs.foldl (fun d batch => batch.foldl putItem d) db

/-- `bulkCreateUsers`: plan, write the batches sequentially, respond 201 with
the count message and the full generated set. -/
def bulkCreateUsers (ev : Event) (db : List Item) (g : Gen) :
    Except Unit (Resp × List Item) :=
  (bulkPlan ev.body g).map (fun p =>
    ({ statusCode := 201,
       body := J.obj [("message", J.str ("Created " ++ toString p.1.length ++ " users")),
                      ("users", J.arr (p.1.map itemJ))] },
     applyBatches db p.2))

/-- The filter predicate of `searchUsers` for one attribute:
`u.f && u.f.toLowerCase().includes(query)` — a missing, null, or empty-string
attribute is falsy and never matches. -/
def fieldMatches (f : Attr) (q : String) : Bool :=
  match f with
  | Attr.str s => !(s == "") && listHasInfix (lowerL s.data) q.data
  | _ => false

/-- `searchUsers`: lower-case the `q` parameter (absent means empty), scan,
and — only when the query is non-empty — keep records whose name or email
matches; respond with the results and their count. -/
def searchUsers (ev : Event) (db : List Item) : Resp :=
  let query := String.mk (lowerL ((ev.q.getD "").data))
  let users := if query == "" then db
    else db.filter (fun u => fieldMatches u.name query || fieldMatches u.email query)
  { statusCode := 200,
    body := J.obj [("results", J.arr (users.map itemJ)),
                   ("count", J.num users.length)] }

/-- Sort key of `getUserStats`: `x.createdAt || ""`. -/
def sortKey (u : Item) : String :=
  match u.createdAt with
  | Attr.str s => s
  | _ => ""

/-- The filter predicate `u.createdAt >= today`: false when `createdAt` is
missing or null (JavaScript compares those numerically against a non-numeric
string), else code-point comparison of the two ISO strings. -/
def createdGe (f : Attr) (today : String) : Bool :=
  match f with
  | Attr.str s => !(strLtB s today)
  | _ => false

/-- One insertion step of the descending sort
`users.sort((a, b) => (b.createdAt || "").localeCompare(a.createdAt || ""))`. -/
def insertByDesc (u : Item) : List Item → List Item
  | [] => [u]
  | v :: vs =>
    if strLtB (sortKey u) (sortKey v) then v :: insertByDesc u vs
    else u :: v :: vs

/-- The stable descending-by-`createdAt` sort of `getUserStats`. -/
def sortByCreatedDesc (l : List Item) : List Item := l.foldr insertByDesc []

/-- `getUserStats`: scan; total count; count of records created today
(`createdAt >= today`, where `today` is the ISO timestamp of local midnight,
supplied by the clock); the 5 most recent records by descending `createdAt`;
and a generation timestamp. -/
def getUserStats (db : List Item) (today lastUpd : String) : Resp :=
  { statusCode := 200,
    body := J.obj [("totalUsers", J.num db.length),
                   ("usersCreatedToday", J.num (db.filter (fun u => createdGe u.createdAt today)).length),
                   ("recentUsers", J.arr (((sortByCreatedDesc db).take 5).map itemJ)),
                   ("lastUpdated", J.str lastUpd)] }

/-- `exportUsers`: scan; respond with all items and download headers. -/
def exportUsers (db : List Item) : Resp :=
  { statusCode := 200,
    headers := [("Content-Type", "application/json"),
                ("Content-Disposition", "attachment; filename=\"users.json\"")],
    body := J.arr (db.map itemJ) }

/-- `getUser`: keyed lookup; 404 when absent, else 200 with the record. -/
def getUser (userId : String) (db : List Item) : Resp :=
  match getItem db userId with
  | none => { statusCode := 404, body := J.obj [("message", J.str "User not found")] }
  | some it => { statusCode := 200, body := itemJ it }

/-- `updateUser`: `JSON.parse(event.body!)` (throws on absent/malformed
body); set exactly `name` and `email` — each coerced by `|| null` — on the
stored item (an upsert when the id is unknown); respond 200 with the
post-update item (`ReturnValues: ALL_NEW`). -/
def updateUser (ev : Event) (userId : String) (db : List Item) :
    Except Unit (Resp × List Item) :=
  match ev.body with
  | some (Body.obj nm em _) =>
    let r := updateItem db userId (orNull nm) (orNull em)
    Except.ok ({ statusCode := 200, body := itemJ r.1 }, r.2)
  | _ => Except.error ()

/-- `deleteUser`: unconditional keyed delete; respond 200 with a
confirmation message carrying the id. -/
def deleteUser (userId : String) (db : List Item) : Resp × List Item :=
  ({ statusCode := 200,
     body := J.obj [("message", J.str ("user deleted : " ++ userId))] },
   deleteItem db userId)

/-! ## The router -/

/-- The routing decision of the handler, read off the source's if/switch
chain: either an operation (with the extracted id where applicable) or one of
the three routing-error responses. -/
inductive Route where
  | getAll
  | create
  | bulkCreate
  | search
  | stats
  | exportAll
  | getById (id : String)
  | updateById (id : String)
  | deleteById (id : String)
  | badMethod
  | idRequired
  | notFound
deriving DecidableEq, Repr

/-- The source's routing chain, in source order: exact `/users`; exact
`/users/bulk` + POST; exact `/users/search` + GET; exact `/users/stats` +
GET; exact `/users/export` + GET; any other path starting with `/users/`
(id extracted as `path.split("/users/")[1]`, empty id rejected); else 404. -/
def route (method path : String) : Route :=
  if path = "/users" then
    match method with
    | "GET" => Route.getAll
    | "POST" => Route.create
    | _ => Route.badMethod
  else if path = "/users/bulk" ∧ method = "POST" then Route.bulkCreate
  else if path = "/users/search" ∧ method = "GET" then Route.search
  else if path = "/users/stats" ∧ method = "GET" then Route.stats
  else if path = "/users/export" ∧ method = "GET" then Route.exportAll
  else if strStarts "/users/" path then
    let userId := userIdOf path
    if userId = "" then Route.idRequired
    else
      match method with
      | "GET" => Route.getById userId
      | "PUT" => Route.updateById userId
      | "DELETE" => Route.deleteById userId
      | _ => Route.badMethod
  else Route.notFound

/-- The routing-error responses the handler returns inline. -/
def badMethodResp : Resp :=
  { statusCode := 400, body := J.obj [("message", J.str "Unsupported method")] }

/-- Response for a `/users/` path with an empty id. -/
def idRequiredResp : Resp :=
  { statusCode := 400, body := J.obj [("message", J.str "User ID required")] }

/-- Response for an unmatched path. -/
def notFoundResp : Resp :=
  { statusCode := 404, body := J.obj [("message", J.str "Not Found")] }

/-- The catch-all response of the top-level `try/catch`. -/
def serverErrorResp : Resp :=
  { statusCode := 500, body := J.obj [("message", J.str "Internal Server Error")] }

/-- The body of the handler's `try` block: route, then run the selected
operation; a raised failure (a `JSON.parse` throw in this model) propagates
as `Except.error`. -/
def handlerRun (ev : Event) (db : List Item) (g : Gen) (today lastUpd : String) :
    Except Unit (Resp × List Item) :=
  match route ev.method ev.path with
  | Route.getAll => Except.ok (getAllUsers db, db)
  | Route.create => createUser ev db g
  | Route.bulkCreate => bulkCreateUsers ev db g
  | Route.search => Except.ok (searchUsers ev db, db)
  | Route.stats => Except.ok (getUserStats db today lastUpd, db)
  | Route.exportAll => Except.ok (exportUsers db, db)
  | Route.getById i => Except.ok (getUser i db, db)
  | Route.updateById i => updateUser ev i db
  | Route.deleteById i => Except.ok (deleteUser i db)
  | Route.badMethod => Except.ok (badMethodResp, db)
  | Route.idRequired => Except.ok (idRequiredResp, db)
  | Route.notFound => Except.ok (notFoundResp, db)

/-- The exported handler: the `try/catch` wrapper — any failure of the
operation is converted to the fixed 500 response (and the store is left as
the failed operation left it; in this model parse failures happen before any
write, so the store is unchanged). -/
def handler (ev : Event) (db : List Item) (g : Gen) (today lastUpd : String) :
    Resp × List Item :=
  match handlerRun ev db g today lastUpd with
  | Except.ok r => r
  | Except.error _ => (serverErrorResp, db)

/-! ## The routing contract as the specification states it -/

/-- Evaluates an ordered list of matchers first-match-wins; an unmatched
request is a "not found" error (the specification's final rule). -/
def applyRules (method path : String) : List (String → String → Option Route) → Route
  | [] => Route.notFound
  | r :: rs =>
    match r method path with
    | some x => x
    | none => applyRules method path rs

/-- Rule 1 of the dispatch contract: exact match on the collection path. -/
def ruleCollection (method path : String) : Option Route :=
  if path = "/users" then
    some (match method with
      | "GET" => Route.getAll
      | "POST" => Route.create
      | _ => Route.badMethod)
  else none

/-- Rule 2: exact match on the bulk path, POST only. -/
def ruleBulk (method path : String) : Option Route :=
  if path = "/users/bulk" ∧ method = "POST" then some Route.bulkCreate else none

/-- Rule 3: exact match on the search path, GET only. -/
def ruleSearch (method path : String) : Option Route :=
  if path = "/users/search" ∧ method = "GET" then some Route.search else none

/-- Rule 4: exact match on the stats path, GET only. -/
def ruleStats (method path : String) : Option Route :=
  if path = "/users/stats" ∧ method = "GET" then some Route.stats else none

/-- Rule 5: exact match on the export path, GET only. -/
def ruleExport (method path : String) : Option Route :=
  if path = "/users/export" ∧ method = "GET" then some Route.exportAll else none

/-- The method table shared by rule 6 in both readings. -/
def idRuleOf (method recordId : String) : Route :=
  if recordId = "" then Route.idRequired
  else
    match method with
    | "GET" => Route.getById recordId
    | "PUT" => Route.updateById recordId
    | "DELETE" => Route.deleteById recordId
    | _ => Route.badMethod

/-- Rule 6 as the specification words it: the id is THE WHOLE REMAINDER of
the path after the `/users/` prefix. -/
def ruleIdRemainder (method path : String) : Option Route :=
  if strStarts "/users/" path then
    some (idRuleOf method (String.mk (path.data.drop 7)))
  else none

/-- Rule 6 as the code computes it: the id is `path.split("/users/")[1]`,
i.e. the remainder only up to the next occurrence of `"/users/"`. -/
def ruleIdSplit (method path : String) : Option Route :=
  if strStarts "/users/" path then some (idRuleOf method (userIdOf path)) else none

/-- The dispatch contract exactly as the specification sentence enumerates
it (rules 1–6 in precedence order, then "not found"). -/
def routeSpecStated (method path : String) : Route :=
  applyRules method path
    [ruleCollection, ruleBulk, ruleSearch, ruleStats, ruleExport, ruleIdRemainder]

/-- The dispatch contract with rule 6 amended to the split-based id
extraction the code performs. -/
def routeSpecAmended (method path : String) : Route :=
  applyRules method path
    [ruleCollection, ruleBulk, ruleSearch, ruleStats, ruleExport, ruleIdSplit]

/-! ## The search contract as the specification states it -/

/-- The specification's match predicate for one attribute: the attribute,
lower-cased, contains the (already lower-cased) query as a substring;
missing and null attributes match nothing. -/
def specAttrHas (f : Attr) (q : String) : Bool :=
  match f with
  | Attr.str s => listHasInfix (lowerL s.data) q.data
  | _ => false

/-- The specification's record filter: with an empty query every record
passes; otherwise the record's name or email must contain the query. -/
def specMatches (q : String) (u : Item) : Bool :=
  q == "" || specAttrHas u.name q || specAttrHas u.email q

/-- The batch sizes determined by the record count alone: `min 25` of what
remains at each chunk boundary. -/
def lenPlan (n : Nat) : List Nat :=
  (List.range ((n + 24) / 25)).map (fun k => min 25 (n - 25 * k))

/-! ## Helper lemmas: the lexicographic string order -/

theorem chListLt_trans {a : List Char} : ∀ {b c : List Char},
    chListLt a b = true → chListLt b c = true → chListLt a c = true := by
  induction a with
  | nil =>
    intro b c h1 h2
    cases b with
    | nil => simp [chListLt] at h1
    | cons y ys =>
      cases c with
      | nil => simp [chListLt] at h2
      | cons z zs => simp [chListLt]
  | cons x xs ih =>
    intro b c h1 h2
    cases b with
    | nil => simp [chListLt] at h1
    | cons y ys =>
      cases c with
      | nil => simp [chListLt] at h2
      | cons z zs =>
        simp only [chListLt] at h1 h2 ⊢
        rcases Nat.lt_trichotomy x.toNat y.toNat with hxy | hxy | hxy
        · rcases Nat.lt_trichotomy y.toNat z.toNat with hyz | hyz | hyz
          · rw [if_pos (show x.toNat < z.toNat by omega)]
          · rw [if_pos (show x.toNat < z.toNat by omega)]
          · rw [if_neg (show ¬ y.toNat < z.toNat by omega), if_pos hyz] at h2
            exact absurd h2 (by simp)
        · rw [if_neg (show ¬ x.toNat < y.toNat by omega),
              if_neg (show ¬ y.toNat < x.toNat by omega)] at h1
          rcases Nat.lt_trichotomy y.toNat z.toNat with hyz | hyz | hyz
          · rw [if_pos (show x.toNat < z.toNat by omega)]
          · rw [if_neg (show ¬ y.toNat < z.toNat by omega),
                if_neg (show ¬ z.toNat < y.toNat by omega)] at h2
            rw [if_neg (show ¬ x.toNat < z.toNat by omega),
                if_neg (show ¬ z.toNat < x.toNat by omega)]
            exact ih h1 h2
          · rw [if_neg (show ¬ y.toNat < z.toNat by omega), if_pos hyz] at h2
            exact absurd h2 (by simp)
        · rw [if_neg (show ¬ x.toNat < y.toNat by omega), if_pos hxy] at h1
          exact absurd h1 (by simp)

theorem chListLt_asymm {a : List Char} : ∀ {b : List Char},
    chListLt a b = true → chListLt b a = false := by
  induction a with
  | nil =>
    intro b h
    cases b with
    | nil => simp [chListLt] at h
    | cons y ys => simp [chListLt]
  | cons x xs ih =>
    intro b h
    cases b with
    | nil => simp [chListLt] at h
    | cons y ys =>
      simp only [chListLt] at h ⊢
      rcases Nat.lt_trichotomy x.toNat y.toNat with hxy | hxy | hxy
      · rw [if_neg (show ¬ y.toNat < x.toNat by omega), if_pos hxy]
      · rw [if_neg (show ¬ x.toNat < y.toNat by omega),
            if_neg (show ¬ y.toNat < x.toNat by omega)] at h
        rw [if_neg (show ¬ y.toNat < x.toNat by omega),
            if_neg (show ¬ x.toNat < y.toNat by omega)]
        exact ih h
      · rw [if_neg (show ¬ x.toNat < y.toNat by omega), if_pos hxy] at h
        exact absurd h (by simp)

theorem chListLt_nlt_trans {a : List Char} : ∀ {b c : List Char},
    chListLt a b = false → chListLt b c = false → chListLt a c = false := by
  induction a with
  | nil =>
    intro b c h1 h2
    cases b with
    | cons y ys => simp [chListLt] at h1
    | nil =>
      cases c with
      | cons z zs => simp [chListLt] at h2
      | nil => simp [chListLt]
  | cons x xs ih =>
    intro b c h1 h2
    cases b with
    | nil =>
      cases c with
      | cons z zs => simp [chListLt] at h2
      | nil => simp [chListLt]
    | cons y ys =>
      cases c with
      | nil => simp [chListLt]
      | cons z zs =>
        simp only [chListLt] at h1 h2 ⊢
        rcases Nat.lt_trichotomy x.toNat y.toNat with hxy | hxy | hxy
        · rw [if_pos hxy] at h1
          exact absurd h1 (by simp)
        · rw [if_neg (show ¬ x.toNat < y.toNat by omega),
              if_neg (show ¬ y.toNat < x.toNat by omega)] at h1
          rcases Nat.lt_trichotomy y.toNat z.toNat with hyz | hyz | hyz
          · rw [if_pos hyz] at h2
            exact absurd h2 (by simp)
          · rw [if_neg (show ¬ y.toNat < z.toNat by omega),
                if_neg (show ¬ z.toNat < y.toNat by omega)] at h2
            rw [if_neg (show ¬ x.toNat < z.toNat by omega),
                if_neg (show ¬ z.toNat < x.toNat by omega)]
            exact ih h1 h2
          · rw [if_neg (show ¬ x.toNat < z.toNat by omega),
                if_pos (show z.toNat < x.toNat by omega)]
        · rcases Nat.lt_trichotomy y.toNat z.toNat with hyz | hyz | hyz
          · rw [if_pos hyz] at h2
            exact absurd h2 (by simp)
          · rw [if_neg (show ¬ x.toNat < z.toNat by omega),
                if_pos (show z.toNat < x.toNat by omega)]
          · rw [if_neg (show ¬ x.toNat < z.toNat by omega),
                if_pos (show z.toNat < x.toNat by omega)]

theorem strLtB_trans {a b c : String} (h1 : strLtB a b = true)
    (h2 : strLtB b c = true) : strLtB a c = true :=
  chListLt_trans h1 h2

theorem strLtB_asymm {a b : String} (h : strLtB a b = true) :
    strLtB b a = false :=
  chListLt_asymm h

theorem strLtB_nlt_trans {a b c : String} (h1 : strLtB a b = false)
    (h2 : strLtB b c = false) : strLtB a c = false :=
  chListLt_nlt_trans h1 h2

/-! ## Helper lemmas: batching -/

theorem batchesOf_nil : batchesOf [] = [] := rfl

theorem batchesOf_cons (l : List Item) (h : l ≠ []) :
    batchesOf l = l.take 25 :: batchesOf (l.drop 25) := by
  have hlen : 0 < l.length := List.length_pos.mpr h
  have hd : (l.drop 25).length = l.length - 25 := List.length_drop 25 l
  have hc : (l.length + 24) / 25 = ((l.drop 25).length + 24) / 25 + 1 := by
    rw [hd]; omega
  unfold batchesOf
  rw [hc, List.range_succ_eq_map, List.map_cons, List.map_map]
  simp only [Nat.mul_zero, List.drop_zero, List.cons.injEq, true_and]
  apply List.map_congr_left
  intro k _
  simp only [Function.comp_apply, List.drop_drop, Nat.mul_succ, Nat.add_comm]

theorem batchesOf_flatten_aux : ∀ (n : Nat) (l : List Item), l.length ≤ n →
    (batchesOf l).flatten = l := by
  intro n
  induction n with
  | zero =>
    intro l hl
    have : l = [] := List.eq_nil_of_length_eq_zero (Nat.le_zero.mp hl)
    subst this
    rfl
  | succ n ih =>
    intro l hl
    by_cases h : l = []
    · subst h; rfl
    · rw [batchesOf_cons l h, List.flatten_cons,
        ih (l.drop 25) (by rw [List.length_drop]; omega),
        List.take_append_drop]

theorem batchesOf_flatten (l : List Item) : (batchesOf l).flatten = l :=
  batchesOf_flatten_aux l.length l le_rfl

theorem batchesOf_le_25 (l : List Item) : ∀ b ∈ batchesOf l, b.length ≤ 25 := by
  intro b hb
  unfold batchesOf at hb
  rcases List.mem_map.mp hb with ⟨k, _, rfl⟩
  simp only [List.length_take]
  omega

theorem batchesOf_lengths (l : List Item) :
    (batchesOf l).map List.length = lenPlan l.length := by
  unfold batchesOf lenPlan
  rw [List.map_map]
  apply List.map_congr_left
  intro k _
  simp [List.length_take, List.length_drop]

/-! ## Helper lemmas: the keyed store -/

theorem getItem_putItem_self (db : List Item) (u : Item) :
    getItem (putItem db u) u.id = some u := by
  induction db with
  | nil => simp [putItem, getItem]
  | cons j js ih =>
    by_cases h : (j.id == u.id) = true
    · simp [putItem, h, getItem]
    · simp only [putItem, if_neg h]
      simp only [getItem] at ih ⊢
      exact (List.find?_cons_of_neg (putItem js u) h).trans ih

theorem getItem_id_eq {db : List Item} {key : String} {it : Item}
    (h : getItem db key = some it) : it.id = key := by
  have := List.find?_some h
  simpa using this

/-! ## Helper lemmas: the descending sort of getUserStats -/

theorem insertByDesc_perm (u : Item) (l : List Item) :
    List.Perm (insertByDesc u l) (u :: l) := by
  induction l with
  | nil => simp [insertByDesc]
  | cons v vs ih =>
    by_cases h : strLtB (sortKey u) (sortKey v) = true
    · simp only [insertByDesc, if_pos h]
      exact (ih.cons v).trans (List.Perm.swap u v vs)
    · simp only [insertByDesc, if_neg h]
      exact List.Perm.refl _

theorem sortByCreatedDesc_perm (l : List Item) :
    List.Perm (sortByCreatedDesc l) l := by
  induction l with
  | nil => simp [sortByCreatedDesc]
  | cons v vs ih =>
    have hstep : sortByCreatedDesc (v :: vs) = insertByDesc v (sortByCreatedDesc vs) := rfl
    rw [hstep]
    exact (insertByDesc_perm v (sortByCreatedDesc vs)).trans (ih.cons v)

/-- The order in which the descending sort may place `x` before `y`:
`y`'s key is not greater than `x`'s. -/
def descOrd (x y : Item) : Prop := strLtB (sortKey x) (sortKey y) = false

theorem insertByDesc_pairwise (u : Item) (l : List Item)
    (h : List.Pairwise descOrd l) :
    List.Pairwise descOrd (insertByDesc u l) := by
  induction l with
  | nil => simp [insertByDesc, List.Pairwise]
  | cons v vs ih =>
    rcases List.pairwise_cons.mp h with ⟨hv, hvs⟩
    by_cases hc : strLtB (sortKey u) (sortKey v) = true
    · simp only [insertByDesc, if_pos hc]
      apply List.pairwise_cons.mpr
      constructor
      · intro w hw
        rcases List.mem_cons.mp (((insertByDesc_perm u vs).mem_iff).mp hw) with hwu | hwvs
        · subst hwu
          exact strLtB_asymm hc
        · exact hv w hwvs
      · exact ih hvs
    · simp only [insertByDesc, if_neg hc]
      apply List.pairwise_cons.mpr
      refine ⟨?_, h⟩
      intro w hw
      have huv : strLtB (sortKey u) (sortKey v) = false := by
        simpa using hc
      rcases List.mem_cons.mp hw with hwv | hwvs
      · subst hwv
        exact huv
      · exact strLtB_nlt_trans huv (hv w hwvs)

theorem sortByCreatedDesc_pairwise (l : List Item) :
    List.Pairwise descOrd (sortByCreatedDesc l) := by
  induction l with
  | nil => simp [sortByCreatedDesc, List.Pairwise]
  | cons v vs ih => exact insertByDesc_pairwise v (sortByCreatedDesc vs) ih

/-! ## Helper lemmas: routing -/

theorem route_eq_routeSpecAmended (m p : String) : route m p = routeSpecAmended m p := by
  by_cases h1 : p = "/users"
  · simp [route, routeSpecAmended, applyRules, ruleCollection, h1]
  · by_cases h2 : p = "/users/bulk" ∧ m = "POST"
    · simp [route, routeSpecAmended, applyRules, ruleCollection, ruleBulk, h1, h2]
    · by_cases h3 : p = "/users/search" ∧ m = "GET"
      · simp [route, routeSpecAmended, applyRules, ruleCollection, ruleBulk, ruleSearch,
          h1, h2, h3]
      · by_cases h4 : p = "/users/stats" ∧ m = "GET"
        · simp [route, routeSpecAmended, applyRules, ruleCollection, ruleBulk, ruleSearch,
            ruleStats, h1, h2, h3, h4]
        · by_cases h5 : p = "/users/export" ∧ m = "GET"
          · simp [route, routeSpecAmended, applyRules, ruleCollection, ruleBulk, ruleSearch,
              ruleStats, ruleExport, h1, h2, h3, h4, h5]
          · by_cases h6 : strStarts "/users/" p = true
            · simp [route, routeSpecAmended, applyRules, ruleCollection, ruleBulk, ruleSearch,
                ruleStats, ruleExport, ruleIdSplit, idRuleOf, h1, h2, h3, h4, h5, h6]
            · simp [route, routeSpecAmended, applyRules, ruleCollection, ruleBulk, ruleSearch,
                ruleStats, ruleExport, ruleIdSplit, idRuleOf, h1, h2, h3, h4, h5, h6]

/-! ## Convenient concrete generators for witness evaluations -/

/-- A generator with a constant clock (every time sample identical). -/
def g0 : Gen :=
  { uuid := fun i => "id-" ++ toString i,
    fakeName := fun _ => "Gen Name",
    fakeEmail := fun _ => "gen@example.com",
    nowIso := fun _ => "2025-10-12T09:00:00.000Z" }

/-- A generator whose clock advances on every sample. -/
def gTick : Gen :=
  { uuid := fun i => "id-" ++ toString i,
    fakeName := fun _ => "Gen Name",
    fakeEmail := fun _ => "gen@example.com",
    nowIso := fun i => toString i }

/-! ## Claim C1 -/

/-- Claim C1, counterexample: the claim says any non-special path beginning
with "/records/" ("/users/" in the code) extracts THE REMAINDER after the
prefix as the record id.  The code instead takes `path.split("/users/")[1]`,
which stops at the next occurrence of "/users/": on the path
"/users/a/users/b" the code routes GET to GetById "a", while the claim's
reading routes it to GetById "a/users/b". -/
theorem claim_C1_counterexample :
    route "GET" "/users/a/users/b" = Route.getById "a"
    ∧ routeSpecStated "GET" "/users/a/users/b" = Route.getById "a/users/b"
    ∧ route "GET" "/users/a/users/b" ≠ routeSpecStated "GET" "/users/a/users/b" := by
  refine ⟨by decide, by decide, by decide⟩

/-- Claim C1 (amended): the router selects exactly one operation by
first-match-wins precedence exactly as claimed — exact "/users" (GET List,
POST Create, otherwise a 400 "unsupported method"); then exact
"/users/bulk" (POST), "/users/search" (GET), "/users/stats" (GET),
"/users/export" (GET); then any other path beginning with "/users/" with the
record id extracted as `path.split("/users/")[1]` (the remainder only up to
any further occurrence of "/users/"), an empty id giving a 400 "id
required", and GET/PUT/DELETE dispatching to GetById/UpdateById/DeleteById
with any other method a 400; and any other path a 404.  In particular a
non-POST request to "/users/bulk" falls through to the prefix rule with
record id "bulk". -/
theorem claim_C1_router :
    (∀ m p, route m p = routeSpecAmended m p)
    ∧ route "GET" "/users/bulk" = Route.getById "bulk"
    ∧ route "PUT" "/users/bulk" = Route.updateById "bulk"
    ∧ route "DELETE" "/users/bulk" = Route.deleteById "bulk"
    ∧ route "PATCH" "/users/bulk" = Route.badMethod := by
  refine ⟨route_eq_routeSpecAmended, by decide, by decide, by decide, by decide⟩

/-! ## Claim C2 -/

/-- Claim C2: the number of records BulkCreate generates (and hands to the
batch writer) is the requested count clamped to [1, 100]; the count defaults
to 10 when the body is absent or the field is missing; count 0 creates 1,
count 1000 creates 100, an empty body object creates 10. -/
theorem claim_C2_bulk_count (g : Gen) (nm em : Attr) :
    ((bulkPlan (some (Body.obj nm em (some 0))) g).map (fun pr => pr.1.length)
      = Except.ok 1)
    ∧ ((bulkPlan (some (Body.obj nm em (some 1000))) g).map (fun pr => pr.1.length)
      = Except.ok 100)
    ∧ ((bulkPlan (some (Body.obj nm em none)) g).map (fun pr => pr.1.length)
      = Except.ok 10)
    ∧ ((bulkPlan none g).map (fun pr => pr.1.length) = Except.ok 10)
    ∧ (∀ c : Int, (bulkPlan (some (Body.obj nm em (some c))) g).map (fun pr => pr.1.length)
      = Except.ok (clampCount c).toNat)
    ∧ (∀ c : Int, 1 ≤ clampCount c ∧ clampCount c ≤ 100
        ∧ (1 ≤ c → c ≤ 100 → clampCount c = c))
    ∧ (∀ c : Int, (bulkPlan (some (Body.obj nm em (some c))) g).map (fun pr => pr.2.flatten.length)
      = Except.ok (clampCount c).toNat) := by
  have hlen : ∀ n : Nat, (genUsers g n).length = n := by
    intro n
    simp [genUsers]
  refine ⟨?_, ?_, ?_, ?_, ?_, ?_, ?_⟩
  · simp [bulkPlan, bulkCount, Except.map, hlen]
    try decide
  · simp [bulkPlan, bulkCount, Except.map, hlen]
    try decide
  · simp [bulkPlan, bulkCount, Except.map, hlen]
    try decide
  · simp [bulkPlan, bulkCount, Except.map, hlen]
    try decide
  · intro c
    simp [bulkPlan, bulkCount, Except.map, hlen]
  · intro c
    refine ⟨?_, ?_, ?_⟩
    · simp only [clampCount]
      omega
    · simp only [clampCount]
      omega
    · intro hc1 hc2
      simp only [clampCount]
      omega
  · intro c
    simp [bulkPlan, bulkCount, Except.map, batchesOf_flatten, hlen]

/-- Claim C2, witness: a concrete evaluation of the clamp at count 57. -/
theorem claim_C2_witness :
    (bulkPlan (some (Body.obj Attr.absent Attr.absent (some 57))) g0).map (fun pr => pr.1.length)
      = Except.ok 57 := by
  have h := (claim_C2_bulk_count g0 Attr.absent Attr.absent).2.2.2.2.1 57
  exact h.trans (congrArg Except.ok (by decide))

/-! ## Claim C3 -/

/-- Claim C3: BulkCreate writes the generated records in sequential
batch-write calls of at most 25 records each, in generation order, no record
dropped or duplicated (the concatenation of the batches is exactly the
generated list); a clamped count of 57 gives exactly 3 calls of sizes
25, 25, 7. -/
theorem claim_C3_batching :
    ∀ (b : Option Body) (g : Gen) (users : List Item) (bs : List (List Item)),
    bulkPlan b g = Except.ok (users, bs) →
    bs = batchesOf users
    ∧ bs.flatten = users
    ∧ (∀ c ∈ bs, c.length ≤ 25)
    ∧ (∀ nm em, b = some (Body.obj nm em (some 57)) → bs.map List.length = [25, 25, 7]) := by
  intro b g users bs h
  have hmain : (∃ c0 : Int, users = genUsers g (clampCount c0).toNat
      ∧ (∀ nm em, b = some (Body.obj nm em (some 57)) → c0 = 57))
      ∧ bs = batchesOf users := by
    cases b with
    | none =>
      simp [bulkPlan, bulkCount, Except.map] at h
      refine ⟨⟨10, h.1.symm, fun nm em hb => by cases hb⟩, ?_⟩
      rw [← h.1]
      exact h.2.symm
    | some bb =>
      cases bb with
      | malformed => simp [bulkPlan, bulkCount, Except.map] at h
      | obj n e c =>
        simp [bulkPlan, bulkCount, Except.map] at h
        refine ⟨⟨c.getD 10, h.1.symm, fun nm em hb => ?_⟩, ?_⟩
        · have hc : c = some 57 := by
            simp only [Option.some.injEq, Body.obj.injEq] at hb
            exact hb.2.2
          rw [hc]
          rfl
        · rw [← h.1]
          exact h.2.symm
  rcases hmain with ⟨⟨c0, husers, h57⟩, hbs⟩
  subst hbs
  refine ⟨rfl, batchesOf_flatten users, batchesOf_le_25 users, ?_⟩
  intro nm em hb
  have hc0 : c0 = 57 := h57 nm em hb
  subst hc0
  have hlen : users.length = 57 := by
    rw [husers]
    simp [genUsers]
    decide
  rw [batchesOf_lengths, hlen]
  decide

/-- Claim C3, witness: the batch plan for a concrete count-57 request. -/
theorem claim_C3_witness :
    bulkPlan (some (Body.obj Attr.absent Attr.absent (some 57))) g0
      = Except.ok (genUsers g0 57, batchesOf (genUsers g0 57))
    ∧ (batchesOf (genUsers g0 57)).map List.length = [25, 25, 7] := by
  have hplan : bulkPlan (some (Body.obj Attr.absent Attr.absent (some 57))) g0
      = Except.ok (genUsers g0 57, batchesOf (genUsers g0 57)) := by
    have hc : (clampCount ((57 : Int))).toNat = 57 := by decide
    simp [bulkPlan, bulkCount, Except.map, hc]
  exact ⟨hplan, (claim_C3_batching _ g0 _ _ hplan).2.2.2 Attr.absent Attr.absent rfl⟩

/-! ## Claim C4 -/

/-- A store with one record, used to exhibit the update coercion. -/
def dbC4 : List Item :=
  [{ id := "a", name := Attr.str "Old Name", email := Attr.str "old@example.com",
     createdAt := Attr.str "2025-01-01T00:00:00.000Z" }]

/-- An update request whose body carries the empty string as the name. -/
def evC4 : Event :=
  { method := "PUT", path := "/users/a",
    body := some (Body.obj (Attr.str "") (Attr.str "new@example.com") none) }

/-- Claim C4, counterexample: the claim says UpdateById sets name and email
to the values parsed from the body, nulling only OMITTED fields.  The code
computes `name || null`, so the parsed empty-string value "" is also
replaced by null: updating record "a" with body name "" stores null, not
the parsed value "". -/
theorem claim_C4_counterexample :
    (updateUser evC4 "a" dbC4).map (fun pr => (getItem pr.2 "a").map (fun it => it.name))
      = Except.ok (some Attr.null)
    ∧ Attr.null ≠ Attr.str "" := by
  exact ⟨rfl, by decide⟩

/-- Claim C4 (amended): for every existing record, UpdateById leaves id and
createdAt unchanged, sets name and email to the parsed body values coerced
by `|| null` (omitted, null, and empty-string values are all written as
null), and returns — and stores — the record's full post-update state. -/
theorem claim_C4_update :
    ∀ (db : List Item) (id0 : String) (it : Item) (nm em : Attr) (c : Option Int) (ev : Event),
    ev.body = some (Body.obj nm em c) →
    getItem db id0 = some it →
    ∃ u : Item,
      updateUser ev id0 db
        = Except.ok ({ statusCode := 200, headers := [], body := itemJ u }, putItem db u)
      ∧ u.id = it.id ∧ u.createdAt = it.createdAt
      ∧ u.name = orNull nm ∧ u.email = orNull em
      ∧ getItem (putItem db u) id0 = some u := by
  intro db id0 it nm em c ev hbody hget
  refine ⟨{ it with name := orNull nm, email := orNull em }, ?_, rfl, rfl, rfl, rfl, ?_⟩
  · simp [updateUser, hbody, updateItem, hget]
  · have hid : it.id = id0 := getItem_id_eq hget
    have := getItem_putItem_self db { it with name := orNull nm, email := orNull em }
    simpa [hid] using this

/-- The update request used by the C4 witness. -/
def evC4w : Event :=
  { method := "PUT", path := "/users/a",
    body := some (Body.obj (Attr.str "New Name") Attr.absent none) }

/-- The stored record of `dbC4`. -/
def itC4 : Item :=
  { id := "a", name := Attr.str "Old Name", email := Attr.str "old@example.com",
    createdAt := Attr.str "2025-01-01T00:00:00.000Z" }

/-- Claim C4, witness: a concrete update of an existing record. -/
theorem claim_C4_witness :
    ∃ u : Item,
      updateUser evC4w "a" dbC4
        = Except.ok ({ statusCode := 200, headers := [], body := itemJ u }, putItem dbC4 u)
      ∧ u.id = itC4.id ∧ u.createdAt = itC4.createdAt
      ∧ u.name = orNull (Attr.str "New Name") ∧ u.email = orNull Attr.absent
      ∧ getItem (putItem dbC4 u) "a" = some u := by
  exact claim_C4_update dbC4 "a" itC4 (Attr.str "New Name") Attr.absent none evC4w rfl rfl

/-! ## Claim C10 -/

/-- The record the upsert creates: only the key and the two coerced
attributes, no createdAt. -/
def upsertItem (id0 : String) (nm em : Attr) : Item :=
  { id := id0, name := orNull nm, email := orNull em, createdAt := Attr.absent }

/-- Claim C10: UpdateById on an id with no stored record does not fail and
does not report not-found: the partial-attribute update acts as an upsert,
returning status 200 and creating a record that carries only id, name and
email (the latter two `|| null`-coerced) and NO createdAt attribute — after
the call such a record exists in the store. -/
theorem claim_C10_upsert :
    ∀ (db : List Item) (id0 : String) (nm em : Attr) (c : Option Int) (ev : Event),
    ev.body = some (Body.obj nm em c) →
    getItem db id0 = none →
    updateUser ev id0 db
      = Except.ok ({ statusCode := 200, headers := [], body := itemJ (upsertItem id0 nm em) },
                   putItem db (upsertItem id0 nm em))
    ∧ getItem (putItem db (upsertItem id0 nm em)) id0 = some (upsertItem id0 nm em)
    ∧ (upsertItem id0 nm em).createdAt = Attr.absent := by
  intro db id0 nm em c ev hbody hget
  refine ⟨?_, ?_, rfl⟩
  · simp [updateUser, hbody, updateItem, hget, upsertItem]
  · exact getItem_putItem_self db (upsertItem id0 nm em)

/-- The update request used by the C10 witness. -/
def evC10w : Event :=
  { method := "PUT", path := "/users/x",
    body := some (Body.obj (Attr.str "N") Attr.absent none) }

/-- Claim C10, witness: updating an id absent from an empty store. -/
theorem claim_C10_witness :
    updateUser evC10w "x" []
      = Except.ok ({ statusCode := 200, headers := [],
                     body := itemJ (upsertItem "x" (Attr.str "N") Attr.absent) },
                   putItem [] (upsertItem "x" (Attr.str "N") Attr.absent))
    ∧ getItem (putItem [] (upsertItem "x" (Attr.str "N") Attr.absent)) "x"
      = some (upsertItem "x" (Attr.str "N") Attr.absent)
    ∧ (upsertItem "x" (Attr.str "N") Attr.absent).createdAt = Attr.absent :=
  claim_C10_upsert [] "x" (Attr.str "N") Attr.absent none evC10w rfl rfl

/-! ## Claim C7 -/

/-- Claim C7: DeleteById deletes by key with no existence check and returns
the same 200 response — a confirmation message carrying the id — for every
store, existing record or not; it never returns an error. -/
theorem claim_C7_delete :
    ∀ (db db2 : List Item) (id0 : String),
    (deleteUser id0 db).1 = (deleteUser id0 db2).1
    ∧ (deleteUser id0 db).1.statusCode = 200
    ∧ (∃ pre, (deleteUser id0 db).1.body = J.obj [("message", J.str (pre ++ id0))])
    ∧ (deleteUser id0 db).2 = deleteItem db id0 := by
  intro db db2 id0
  exact ⟨rfl, rfl, ⟨"user deleted : ", rfl⟩, rfl⟩

/-! ## Claim C6 -/

theorem listHasInfix_nil_hay (needle : List Char) (h : needle ≠ []) :
    listHasInfix [] needle = false := by
  cases needle with
  | nil => exact absurd rfl h
  | cons c cs => simp [listHasInfix, listStartsWith]

theorem data_ne_nil_of_ne_empty {q : String} (h : q ≠ "") : q.data ≠ [] := by
  intro hdata
  apply h
  cases q
  simp_all

/-- With a non-empty query the code's truthiness-guarded attribute test
agrees with the specification's "lower-cased attribute contains the query"
test (an empty-string attribute cannot contain a non-empty query anyway). -/
theorem fieldMatches_eq_specAttrHas (f : Attr) (q : String) (hq : q ≠ "") :
    fieldMatches f q = specAttrHas f q := by
  cases f with
  | absent => rfl
  | null => rfl
  | str s =>
    by_cases hs : s = ""
    · subst hs
      have h1 : lowerL ("" : String).data = [] := rfl
      simp [fieldMatches, specAttrHas, h1,
        listHasInfix_nil_hay q.data (data_ne_nil_of_ne_empty hq)]
    · simp [fieldMatches, specAttrHas, hs]

/-- The record used by the claim's concrete search scenario. -/
def annItem : Item :=
  { id := "u1", name := Attr.str "Ann Lee", email := Attr.str "x@y.z",
    createdAt := Attr.str "2025-01-01T00:00:00.000Z" }

/-- Claim C6: Search lower-cases the `q` parameter (absent means empty),
scans, and returns exactly the records whose name or email, lower-cased,
contains the query as a substring (with an empty query every record passes),
plus the count.  Concretely, a record named "Ann Lee" matches queries "ann",
"ANN" and "lee", and is excluded for "zzz". -/
theorem claim_C6_search :
    (∀ (db : List Item) (qp : Option String) (ev : Event), ev.q = qp →
      searchUsers ev db
        = { statusCode := 200, headers := [],
            body := J.obj
              [("results", J.arr ((db.filter
                  (specMatches (String.mk (lowerL (qp.getD "").data)))).map itemJ)),
               ("count", J.num ((db.filter
                  (specMatches (String.mk (lowerL (qp.getD "").data)))).length : Int))] })
    ∧ searchUsers { method := "GET", path := "/users/search", q := some "ann" } [annItem]
        = { statusCode := 200, headers := [],
            body := J.obj [("results", J.arr [itemJ annItem]), ("count", J.num 1)] }
    ∧ searchUsers { method := "GET", path := "/users/search", q := some "ANN" } [annItem]
        = { statusCode := 200, headers := [],
            body := J.obj [("results", J.arr [itemJ annItem]), ("count", J.num 1)] }
    ∧ searchUsers { method := "GET", path := "/users/search", q := some "lee" } [annItem]
        = { statusCode := 200, headers := [],
            body := J.obj [("results", J.arr [itemJ annItem]), ("count", J.num 1)] }
    ∧ searchUsers { method := "GET", path := "/users/search", q := some "zzz" } [annItem]
        = { statusCode := 200, headers := [],
            body := J.obj [("results", J.arr []), ("count", J.num 0)] } := by
  refine ⟨?_, by rfl, by rfl, by rfl, by rfl⟩
  intro db qp ev hq
  simp only [searchUsers, hq]
  by_cases hempty : String.mk (lowerL (qp.getD "").data) = ""
  · rw [if_pos (show (String.mk (lowerL (qp.getD "").data) == "") = true by
      simpa using hempty)]
    have hall : ∀ u ∈ db, specMatches (String.mk (lowerL (qp.getD "").data)) u = true := by
      intro u _
      simp [specMatches, hempty]
    rw [List.filter_eq_self.mpr hall]
  · rw [if_neg (show ¬ (String.mk (lowerL (qp.getD "").data) == "") = true by
      simpa using hempty)]
    have hcongr : ∀ u ∈ db,
        (fieldMatches u.name (String.mk (lowerL (qp.getD "").data))
          || fieldMatches u.email (String.mk (lowerL (qp.getD "").data)))
        = specMatches (String.mk (lowerL (qp.getD "").data)) u := by
      intro u _
      have h1 := fieldMatches_eq_specAttrHas u.name _ hempty
      have h2 := fieldMatches_eq_specAttrHas u.email _ hempty
      have h3 : (String.mk (lowerL (qp.getD "").data) == "") = false := by
        simpa using hempty
      simp [specMatches, h1, h2, h3]
    rw [List.filter_congr hcongr]

/-! ## Claim C5 -/

/-- Claim C5: Stats scans everything and reports the total count, the count
of records whose createdAt is lexicographically at least the local-midnight
ISO timestamp, and the 5 records of greatest createdAt in descending order
(the reported recent list is a permutation prefix of the store sorted
descending).  In the claimed scenario — T1 < T2 < T3 with T3 in the current
day and T1, T2 before it — it reports total 3, created-today 1, and recent
records [T3, T2, T1]. -/
theorem claim_C5_stats :
    (∀ (db : List Item) (today lu : String),
      getUserStats db today lu
        = { statusCode := 200, headers := [],
            body := J.obj
              [("totalUsers", J.num (db.length : Int)),
               ("usersCreatedToday",
                 J.num ((db.filter (fun u => createdGe u.createdAt today)).length : Int)),
               ("recentUsers", J.arr (((sortByCreatedDesc db).take 5).map itemJ)),
               ("lastUpdated", J.str lu)] }
      ∧ List.Perm (sortByCreatedDesc db) db
      ∧ List.Pairwise descOrd (sortByCreatedDesc db))
    ∧ ∀ (u1 u2 u3 : Item) (t1 t2 t3 today lu : String),
      u1.createdAt = Attr.str t1 → u2.createdAt = Attr.str t2 → u3.createdAt = Attr.str t3 →
      strLtB t1 t2 = true → strLtB t2 t3 = true →
      strLtB t1 today = true → strLtB t2 today = true → strLtB t3 today = false →
      getUserStats [u1, u2, u3] today lu
        = { statusCode := 200, headers := [],
            body := J.obj
              [("totalUsers", J.num 3), ("usersCreatedToday", J.num 1),
               ("recentUsers", J.arr [itemJ u3, itemJ u2, itemJ u1]),
               ("lastUpdated", J.str lu)] } := by
  constructor
  · intro db today lu
    exact ⟨rfl, sortByCreatedDesc_perm db, sortByCreatedDesc_pairwise db⟩
  · intro u1 u2 u3 t1 t2 t3 today lu hu1 hu2 hu3 h12 h23 hT1 hT2 hT3
    have k1 : sortKey u1 = t1 := by simp [sortKey, hu1]
    have k2 : sortKey u2 = t2 := by simp [sortKey, hu2]
    have k3 : sortKey u3 = t3 := by simp [sortKey, hu3]
    have h13 : strLtB t1 t3 = true := strLtB_trans h12 h23
    simp [getUserStats, createdGe, hu1, hu2, hu3, hT1, hT2, hT3,
      sortByCreatedDesc, insertByDesc, k1, k2, k3, h12, h23, h13]

/-- Concrete records for the C5 scenario. -/
def w1 : Item :=
  { id := "1", name := Attr.str "A", email := Attr.str "a@x",
    createdAt := Attr.str "2025-10-11T08:00:00.000Z" }

/-- Second concrete record for the C5 scenario. -/
def w2 : Item :=
  { id := "2", name := Attr.str "B", email := Attr.str "b@x",
    createdAt := Attr.str "2025-10-11T09:00:00.000Z" }

/-- Third concrete record for the C5 scenario. -/
def w3 : Item :=
  { id := "3", name := Attr.str "C", email := Attr.str "c@x",
    createdAt := Attr.str "2025-10-12T07:00:00.000Z" }

/-- Claim C5, witness: the three-record scenario on concrete timestamps. -/
theorem claim_C5_witness :
    getUserStats [w1, w2, w3] "2025-10-12T00:00:00.000Z" "2025-10-12T10:00:00.000Z"
      = { statusCode := 200, headers := [],
          body := J.obj
            [("totalUsers", J.num 3), ("usersCreatedToday", J.num 1),
             ("recentUsers", J.arr [itemJ w3, itemJ w2, itemJ w1]),
             ("lastUpdated", J.str "2025-10-12T10:00:00.000Z")] } :=
  claim_C5_stats.2 w1 w2 w3
    "2025-10-11T08:00:00.000Z" "2025-10-11T09:00:00.000Z" "2025-10-12T07:00:00.000Z"
    "2025-10-12T00:00:00.000Z" "2025-10-12T10:00:00.000Z"
    rfl rfl rfl (by decide) (by decide) (by decide) (by decide) (by decide)

/-! ## Claim C9 -/

/-- Any successful bulk plan generates its users by the indexed generation
loop (for some parsed-and-clamped count) and batches exactly those users. -/
theorem bulkPlan_ok {b : Option Body} {g : Gen} {users : List Item}
    {bs : List (List Item)} (h : bulkPlan b g = Except.ok (users, bs)) :
    ∃ c0 : Int, users = genUsers g (clampCount c0).toNat ∧ bs = batchesOf users := by
  cases b with
  | none =>
    simp [bulkPlan, bulkCount, Except.map] at h
    refine ⟨10, h.1.symm, ?_⟩
    rw [← h.1]
    exact h.2.symm
  | some bb =>
    cases bb with
    | malformed => simp [bulkPlan, bulkCount, Except.map] at h
    | obj n e c =>
      simp [bulkPlan, bulkCount, Except.map] at h
      refine ⟨c.getD 10, h.1.symm, ?_⟩
      rw [← h.1]
      exact h.2.symm

/-- Claim C9, counterexample: with a clock that advances between samples,
two records of one bulk call carry different createdAt values — the
generation loop reads `new Date().toISOString()` on every iteration, so the
timestamp IS re-sampled per item and the records need not share one value. -/
theorem claim_C9_counterexample :
    (bulkPlan (some (Body.obj Attr.absent Attr.absent (some 2))) gTick).map
        (fun pr => pr.1.map (fun u => u.createdAt))
      = Except.ok [Attr.str "0", Attr.str "1"]
    ∧ Attr.str "0" ≠ Attr.str "1" := by
  exact ⟨rfl, by decide⟩

/-- Claim C9 (amended): the timestamp is re-sampled for every generated
item — record i carries the clock's i-th sample — so the records of one
bulk call all carry an identical createdAt exactly when the clock returns
the same value for every sample (as typically happens within one
millisecond, which is why they MAY share a timestamp). -/
theorem claim_C9_timestamps :
    ∀ (b : Option Body) (g : Gen) (users : List Item) (bs : List (List Item)),
    bulkPlan b g = Except.ok (users, bs) →
    users.map (fun u => u.createdAt)
      = (List.range users.length).map (fun i => Attr.str (g.nowIso i))
    ∧ ((∀ i, g.nowIso i = g.nowIso 0) →
        ∀ u ∈ users, u.createdAt = Attr.str (g.nowIso 0)) := by
  intro b g users bs h
  rcases bulkPlan_ok h with ⟨c0, hu, _⟩
  constructor
  · rw [hu]
    simp [genUsers, List.map_map, Function.comp]
  · intro hconst u hu2
    rw [hu] at hu2
    rcases List.mem_map.mp hu2 with ⟨i, _, rfl⟩
    simp [hconst i]

/-- Claim C9, witness: with the constant clock every generated record
carries that single timestamp. -/
theorem claim_C9_witness :
    (genUsers g0 3).map (fun u => u.createdAt)
      = [Attr.str "2025-10-12T09:00:00.000Z", Attr.str "2025-10-12T09:00:00.000Z",
         Attr.str "2025-10-12T09:00:00.000Z"] := by
  have hplan : bulkPlan (some (Body.obj Attr.absent Attr.absent (some 3))) g0
      = Except.ok (genUsers g0 3, batchesOf (genUsers g0 3)) := by
    have hc : (clampCount 3).toNat = 3 := by decide
    simp [bulkPlan, bulkCount, Except.map, hc]
  have h := (claim_C9_timestamps _ g0 _ _ hplan).1
  rw [h]
  rfl

/-! ## Claim C8 -/

/-- Claim C8: every failure an operation raises (absent or unparseable body
in this model) is caught by the handler's top-level try/catch and converted
to the fixed generic 500 response; a successful run is returned unchanged;
the handler is total and every response it returns carries one of the
status codes 200, 201, 400, 404, 500 together with a JSON body. -/
theorem claim_C8_catch :
    ∀ (ev : Event) (db : List Item) (g : Gen) (today lu : String),
    ((handler ev db g today lu).1.statusCode ∈ ([200, 201, 400, 404, 500] : List Nat))
    ∧ (handlerRun ev db g today lu = Except.error () →
        handler ev db g today lu = (serverErrorResp, db)
        ∧ serverErrorResp.statusCode = 500)
    ∧ (∀ r, handlerRun ev db g today lu = Except.ok r → handler ev db g today lu = r) := by
  intro ev db g today lu
  have hok : ∀ r, handlerRun ev db g today lu = Except.ok r →
      r.1.statusCode ∈ ([200, 201, 400, 404, 500] : List Nat) := by
    intro r hr
    unfold handlerRun at hr
    rcases hroute : route ev.method ev.path with _ | _ | _ | _ | _ | _ | i | i | i | _ | _ | _
    all_goals rw [hroute] at hr
    case getAll =>
      injection hr with h
      subst h
      simp [getAllUsers]
    case create =>
      simp only [createUser] at hr
      rcases hbody : ev.body with _ | mb
      · rw [hbody] at hr
        exact Except.noConfusion hr
      · cases mb with
        | malformed =>
          rw [hbody] at hr
          exact Except.noConfusion hr
        | obj n e c =>
          rw [hbody] at hr
          injection hr with h
          subst h
          simp
    case bulkCreate =>
      rcases hplan : bulkPlan ev.body g with e | pr
      · simp only [bulkCreateUsers, hplan, Except.map] at hr
        exact Except.noConfusion hr
      · simp only [bulkCreateUsers, hplan, Except.map] at hr
        injection hr with h
        subst h
        simp
    case search =>
      injection hr with h
      subst h
      simp [searchUsers]
    case stats =>
      injection hr with h
      subst h
      simp [getUserStats]
    case exportAll =>
      injection hr with h
      subst h
      simp [exportUsers]
    case getById =>
      injection hr with h
      subst h
      rcases hget : getItem db i with _ | it
      · simp [getUser, hget]
      · simp [getUser, hget]
    case updateById =>
      simp only [updateUser] at hr
      rcases hbody : ev.body with _ | mb
      · rw [hbody] at hr
        exact Except.noConfusion hr
      · cases mb with
        | malformed =>
          rw [hbody] at hr
          exact Except.noConfusion hr
        | obj n e c =>
          rw [hbody] at hr
          injection hr with h
          subst h
          simp
    case deleteById =>
      injection hr with h
      subst h
      simp [deleteUser]
    case badMethod =>
      injection hr with h
      subst h
      simp [badMethodResp]
    case idRequired =>
      injection hr with h
      subst h
      simp [idRequiredResp]
    case notFound =>
      injection hr with h
      subst h
      simp [notFoundResp]
  refine ⟨?_, ?_, ?_⟩
  · unfold handler
    rcases hrun : handlerRun ev db g today lu with e | r
    · simp [serverErrorResp]
    · exact hok r hrun
  · intro he
    unfold handler
    rw [he]
    exact ⟨rfl, rfl⟩
  · intro r hrok
    unfold handler
    rw [hrok]

/-- The malformed request used by the C8 witness. -/
def evC8 : Event :=
  { method := "POST", path := "/users", body := some Body.malformed }

/-- Claim C8, witness: a create request with an unparseable body is
converted to the fixed 500 response, with the store untouched. -/
theorem claim_C8_witness :
    handler evC8 [] g0 "" "" = (serverErrorResp, [])
    ∧ serverErrorResp.statusCode = 500 :=
  (claim_C8_catch evC8 [] g0 "" "").2.1 rfl

/-- Claim C6, witness: the filter characterization evaluated on the concrete
"Ann Lee" store and query. -/
theorem claim_C6_witness :
    searchUsers { method := "GET", path := "/users/search", q := some "ann" } [annItem]
      = { statusCode := 200, headers := [],
          body := J.obj
            [("results", J.arr (([annItem].filter
                (specMatches (String.mk (lowerL ((some "ann").getD "").data)))).map itemJ)),
             ("count", J.num (([annItem].filter
                (specMatches (String.mk (lowerL ((some "ann").getD "").data)))).length : Int))] } :=
  claim_C6_search.1 [annItem] (some "ann")
    { method := "GET", path := "/users/search", q := some "ann" } rfl
